import Mathlib

/-!
Shallow embedding of the CHIP.STREAM chiptune server (`src/app.py`) and proofs
about its multipart decoder, catalog store, range streaming engine and the
`.fc`-to-WAV transcoder.

Conventions of the embedding:
* Python `bytes` values are `List Nat` (each element a byte value).
* Python `str` values are `String` / `List Char`; only ASCII text reaches the
  decoded positions exercised here, so `bytes.decode(errors="replace")` is
  modelled by mapping bytes below 128 to their character and all other bytes
  to the replacement character.
* Fallible Python operations (`struct.pack` range errors, `int()` parsing)
  are modelled with `Option`: `none` stands for the raised exception.
* The JSON "database" file is modelled by the catalog list it deserialises
  to; `json.loads` is an abstract parse parameter where claims quantify over
  corrupted documents.
-/

set_option autoImplicit false

namespace ChipStream

/-- Byte strings (Python `bytes`) as lists of byte values. -/
abbrev Bytes := List Nat

/-- Little-endian encoding of `v` into exactly `n` bytes (as `int.to_bytes` /
the fixed-width fields of `struct.pack` produce). -/
def toLE : Nat → Nat → Bytes
  | 0, _ => []
  | n + 1, v => v % 256 :: toLE n (v / 256)

/-- Little-endian decoding of a byte string, as `int.from_bytes(b, "little")`.
Defined for byte strings of any length (including the empty one, giving 0),
exactly as the Python builtin behaves on short slices. -/
def fromLE (b : Bytes) : Nat :=
  b.foldr (fun x acc => x + 256 * acc) 0

/-- Byte string of an ASCII string literal (Python `b"..."`). -/
def asciiBytes (s : String) : Bytes :=
  s.data.map Char.toNat

/-- Decoding of one byte under the replacement policy of
`bytes.decode(errors="replace")`, restricted to the ASCII range: bytes below
128 decode to themselves, all others to the replacement character. -/
def replDecodeChar (b : Nat) : Char :=
  if b < 128 then Char.ofNat b else '�'

/-- Decoding of a byte string to characters under the replacement policy. -/
def replDecode (b : Bytes) : List Char :=
  b.map replDecodeChar

/-- String from a character list (`String.mk`). -/
def strOfChars (cs : List Char) : String := ⟨cs⟩

/-- Lower-casing of one ASCII character, as `str.lower` acts on the
characters appearing in HTTP headers. -/
def lowerChar (c : Char) : Char :=
  if 'A' ≤ c ∧ c ≤ 'Z' then Char.ofNat (c.toNat + 32) else c

/-- Lower-casing of a character list. -/
def lowerChars (cs : List Char) : List Char :=
  cs.map lowerChar

/-- Lower-casing of a string (`str.lower` on ASCII data). -/
def lowerStr (s : String) : String :=
  strOfChars (lowerChars s.data)

/-- Python whitespace characters stripped by no-argument `str.strip()`. -/
def wsChars : List Char := [' ', '\t', '\n', '\r', '\x0b', '\x0c']

/-- Character-set strip from both ends, as Python `str.strip(chars)`:
removes every leading and trailing character that belongs to `set`. -/
def stripSet (set : List Char) (cs : List Char) : List Char :=
  ((cs.dropWhile (fun c => set.contains c)).reverse.dropWhile
    (fun c => set.contains c)).reverse

/-- No-argument `str.strip()`: strips whitespace from both ends. -/
def pyStrip (s : String) : String :=
  strOfChars (stripSet wsChars s.data)

/-- Byte-set strip of the right end, as Python `bytes.rstrip(set)`: removes
every trailing byte that belongs to `set`. -/
def rstripSet (set : Bytes) (b : Bytes) : Bytes :=
  (b.reverse.dropWhile (fun x => set.contains x)).reverse

/-- Splitting of a character list on every occurrence of the single
character `sep`, as Python `str.split(sep)` for a one-character separator:
`"".split(sep)` gives `[""]`, and empty segments are kept. -/
def splitOnChar (sep : Char) : List Char → List (List Char)
  | [] => [[]]
  | c :: cs =>
    if c == sep then [] :: splitOnChar sep cs
    else
      match splitOnChar sep cs with
      | [] => [[c]]
      | seg :: rest => (c :: seg) :: rest

/-- Worker for `splitLines`, carrying the line built so far. -/
def splitLinesAux (cur : List Char) : List Char → List (List Char)
  | [] => if cur = [] then [] else [cur]
  | '\r' :: '\n' :: rest => cur :: splitLinesAux [] rest
  | '\r' :: rest => cur :: splitLinesAux [] rest
  | '\n' :: rest => cur :: splitLinesAux [] rest
  | c :: rest => splitLinesAux (cur ++ [c]) rest

/-- Python `str.splitlines()` for the line terminators that occur in HTTP
multipart headers (CRLF, lone CR, lone LF): a trailing terminator produces no
extra empty line, and the empty string has no lines. -/
def splitLines (cs : List Char) : List (List Char) :=
  splitLinesAux [] cs

/-- Fuel-indexed worker for `pySplit`; the fuel is an upper bound on the
number of byte positions still to inspect, so calling it with the length of
the input makes it compute exactly Python `bytes.split`. -/
def pySplitFuel (delim : Bytes) : Nat → Bytes → List Bytes
  | 0, s => [s]
  | Nat.succ fuel, s =>
    if delim ≠ [] ∧ delim.isPrefixOf s then
      [] :: pySplitFuel delim fuel (s.drop delim.length)
    else
      match s with
      | [] => [[]]
      | x :: xs =>
        match pySplitFuel delim fuel xs with
        | [] => [[x]]
        | seg :: rest => (x :: seg) :: rest

/-- Python `bytes.split(delim)` for a non-empty delimiter: splits on every
non-overlapping occurrence, scanning left to right, keeping empty segments. -/
def pySplit (s delim : Bytes) : List Bytes :=
  pySplitFuel delim s.length s

/-- Test whether `needle` occurs as a contiguous subsequence of the byte
string, as Python `needle in hay`. -/
def containsSeq (needle : Bytes) : Bytes → Bool
  | [] => needle.isEmpty
  | x :: xs => needle.isPrefixOf (x :: xs) || containsSeq needle xs

/-- Split of a byte string around the first occurrence of `needle`, as the
first and third components of Python `bytes.partition(needle)`; `none` when
`needle` does not occur. -/
def splitFirst (needle : Bytes) : Bytes → Option (Bytes × Bytes)
  | [] => none
  | x :: xs =>
    if needle.isPrefixOf (x :: xs) then some ([], (x :: xs).drop needle.length)
    else (splitFirst needle xs).map (fun pr => (x :: pr.1, pr.2))

/-! ### Multipart decoder (`ChipHandler._parse_multipart`) -/

/-- Result state of the multipart decoder: the text-field dictionary, the
bytes of the file part (if any) and its declared file name (if any). -/
structure MPState where
  fields : List (String × String)
  fileData : Option Bytes
  filename : Option String
  deriving DecidableEq, Repr

/-- Python dict assignment `d[k] = v`: the new binding shadows any previous
binding of `k` (lookup order of other keys is irrelevant to the server). -/
def pyDictSet (m : List (String × String)) (k v : String) : List (String × String) :=
  (k, v) :: m.filter (fun p => ¬ p.1 == k)

/-- Python dict read `d.get(k)`: the most recent binding of `k`. -/
def pyDictGet (m : List (String × String)) (k : String) : Option String :=
  (m.find? (fun p => p.1 == k)).map (fun p => p.2)

/-- Header-name constant used to locate the disposition line. -/
def contentDispLower : String := "content-disposition"

/-- Attribute key constants of the `Content-Disposition` header. -/
def nameEq : String := "name="

/-- Attribute key constant for the file name attribute. -/
def filenameEq : String := "filename="

/-- Scan of the `Content-Disposition` segments, mirroring the
`for seg in disp.split(";")` loop: `name` starts as the empty string, `fn`
as `None`; a segment starting with `name=` sets `name`, otherwise a segment
starting with `filename=` sets `fn`, both with surrounding quotes stripped. -/
def parseDispSegs (segs : List (List Char)) : List Char × Option (List Char) :=
  segs.foldl
    (fun acc seg =>
      if nameEq.data.isPrefixOf seg then (stripSet ['\"'] (seg.drop 5), acc.2)
      else if filenameEq.data.isPrefixOf seg then (acc.1, some (stripSet ['\"'] (seg.drop 9)))
      else acc)
    ([], none)

/-- Processing of one boundary-delimited part, returning `none` when the
loop body executes `continue` (empty part, terminal marker, or no blank-line
separator) and otherwise the cleaned content, the `name` attribute and the
optional `filename` attribute. -/
def partScan (part : Bytes) : Option (Bytes × List Char × Option (List Char)) :=
  if part = [] ∨ part = [45, 45] ∨ part = [45, 45, 13, 10] then none
  else
    let part1 := if ([13, 10] : Bytes).isPrefixOf part then part.drop 2 else part
    if containsSeq [13, 10, 13, 10] part1 then
      match splitFirst [13, 10, 13, 10] part1 with
      | none => none
      | some pr =>
        let content := rstripSet [13, 10] (rstripSet [45] (rstripSet [13, 10] pr.2))
        let lines := splitLines (replDecode pr.1)
        let disp := (lines.find? (fun l => contentDispLower.data.isPrefixOf (lowerChars l))).getD []
        let segs := (splitOnChar ';' disp).map (stripSet wsChars)
        let nf := parseDispSegs segs
        some (content, nf.1, nf.2)
    else none

/-- Loop body of `_parse_multipart` acting on the decoder state: a part with
a non-empty `filename` attribute overwrites the file slot (Python truthiness
of `fn`); otherwise a part with a non-empty `name` records a text field. -/
def processPart (st : MPState) (part : Bytes) : MPState :=
  match partScan part with
  | none => st
  | some cnf =>
    if cnf.2.2.getD [] ≠ [] then
      ⟨st.fields, some cnf.1, some (strOfChars (cnf.2.2.getD []))⟩
    else if cnf.2.1 ≠ [] then
      ⟨pyDictSet st.fields (strOfChars cnf.2.1) (strOfChars (replDecode cnf.1)), st.fileData, st.filename⟩
    else st

/-- The full multipart decoder `_parse_multipart(body, boundary)`: split the
body on `b"--" + boundary`, drop the prologue before the first delimiter, and
fold the loop body over the remaining parts. -/
def parseMultipart (body boundary : Bytes) : MPState :=
  ((pySplit body ([45, 45] ++ boundary)).drop 1).foldl processPart ⟨[], none, none⟩

/-- The file payload a single part contributes: the part's cleaned content
and file name when its `filename` attribute is non-empty, `none` otherwise.
Used to state which of several file parts the decoder ends up returning. -/
def partFile (part : Bytes) : Option (Bytes × String) :=
  match partScan part with
  | none => none
  | some cnf =>
    if cnf.2.2.getD [] ≠ [] then some (cnf.1, strOfChars (cnf.2.2.getD [])) else none

/-- All file payloads occurring in a multipart body, in part order. -/
def filePartsOf (body boundary : Bytes) : List (Bytes × String) :=
  ((pySplit body ([45, 45] ++ boundary)).drop 1).filterMap partFile

/-! ### Catalog store and upload/delete endpoints -/

/-- One catalog record, with the fields `_api_upload` writes. -/
structure Song where
  id : String
  title : String
  artist : String
  comment : String
  filename : String
  ext : String
  size : Nat
  uploaded : String
  deriving DecidableEq, Repr

/-- The extension allow-list `ALLOWED_EXTS`. -/
def ALLOWED_EXTS : List String :=
  [".mp3", ".ogg", ".wav", ".flac", ".mod", ".xm", ".s3m",
   ".it", ".nsf", ".spc", ".gbs", ".vgm", ".vgz", ".fc"]

/-- Persistent server state: the catalog held in the JSON document (the
code re-reads it on every operation, so the document contents are the whole
store state) and the upload directory as a name-to-bytes mapping. -/
structure ServerState where
  catalog : List Song
  files : List (String × Bytes)
  deriving DecidableEq, Repr

/-- HTTP responses the modelled handlers emit. -/
inductive Resp where
  /-- `send_error_json(msg, status)`. -/
  | err (status : Nat) (msg : String)
  /-- `send_json({"ok": True})` with the given status. -/
  | ok (status : Nat)
  /-- `send_json({"ok": True, "song": meta}, 201)`-style upload success. -/
  | uploaded (status : Nat) (song : Song)
  deriving DecidableEq, Repr

/-- Lookup of a song by id (`next((s for s in songs if s["id"] == id), None)`). -/
def findSong (catalog : List Song) (songId : String) : Option Song :=
  catalog.find? (fun s => s.id == songId)

/-- Lookup of a stored file by name in the upload directory. -/
def lookupFile (files : List (String × Bytes)) (name : String) : Option Bytes :=
  (files.find? (fun f => f.1 == name)).map (fun f => f.2)

/-- `write_bytes`: create or overwrite a file in the upload directory. -/
def writeFile (files : List (String × Bytes)) (name : String) (data : Bytes) :
    List (String × Bytes) :=
  (name, data) :: files.filter (fun f => ¬ f.1 == name)

/-- `unlink(missing_ok=True)` wrapped in `try/except`: remove the file if
present, and silently do nothing when it is missing. -/
def unlinkFile (files : List (String × Bytes)) (name : String) : List (String × Bytes) :=
  files.filter (fun f => ¬ f.1 == name)

/-- `load_db()`: the persisted document is `none` when `DB_FILE` does not
exist, otherwise its text; `parse` abstracts `json.loads` (claims quantify
over corrupted documents, so only the success/failure of parsing matters).
A missing document and a document on which `parse` fails both give `[]`. -/
def load_db (parse : String → Option (List Song)) (doc : Option String) : List Song :=
  match doc with
  | none => []
  | some text =>
    match parse text with
    | some songs => songs
    | none => []

/-- `delete_song_by_id` composed into `_api_delete`: look the id up in the
current catalog; on a miss answer 404 and change nothing; on a hit filter
the record out of the catalog, best-effort-remove the backing file, and
answer `{"ok": True}` with status 200. -/
def apiDelete (st : ServerState) (songId : String) : Resp × ServerState :=
  match findSong st.catalog songId with
  | none => (Resp.err 404 "Not found", st)
  | some target =>
    (Resp.ok 200,
     ⟨st.catalog.filter (fun s => ¬ s.id == songId),
      unlinkFile st.files target.filename⟩)

/-- Python truthiness-based default: `value or default` on strings. -/
def pyOr (value default : String) : String :=
  if value = "" then default else value

/-- Index of the last dot and `PurePath.suffix` policy: `Path(f).suffix` is
the substring of the base name from its last dot, provided that dot is
neither the first nor the last character of the base name. -/
def pathSuffix (fname : String) : String :=
  let name := (splitOnChar '/' fname.data).getLastD []
  match (name.enum.filter (fun p => p.2 == '.')).getLast? with
  | some pr =>
    if 0 < pr.1 ∧ pr.1 < name.length - 1 then strOfChars (name.drop pr.1) else ""
  | none => ""

/-- Default title constant of `_api_upload`. -/
def unknownTitle : String := "Unknown Title"

/-- Default artist constant of `_api_upload`. -/
def unknownArtist : String := "Unknown Artist"

/-- `_api_upload` from the point where the body has been decoded: compute
the defaulted metadata fields, reject a missing/empty file or file name
(`if not file_data or not filename`), reject a disallowed extension, and
otherwise store the file under `<fresh id><ext>` and append the metadata
record to the catalog. `freshId` stands for `str(uuid.uuid4())` and `now`
for `datetime.utcnow().isoformat()`. -/
def apiUpload (st : ServerState) (freshId now : String) (p : MPState) :
    Resp × ServerState :=
  let title := pyOr (pyStrip ((pyDictGet p.fields "title").getD "")) unknownTitle
  let artist := pyOr (pyStrip ((pyDictGet p.fields "artist").getD "")) unknownArtist
  let comment := pyStrip ((pyDictGet p.fields "comment").getD "")
  if p.fileData.getD [] = [] ∨ p.filename.getD "" = "" then
    (Resp.err 400 "No file uploaded", st)
  else
    let ext := lowerStr (pathSuffix (p.filename.getD ""))
    if ext ∈ ALLOWED_EXTS then
      let saveName := freshId ++ ext
      let meta : Song :=
        ⟨freshId, title, artist, comment, saveName, ext,
         (p.fileData.getD []).length, now ++ "Z"⟩
      (Resp.uploaded 201 meta,
       ⟨st.catalog ++ [meta], writeFile st.files saveName (p.fileData.getD [])⟩)
    else
      (Resp.err 400 ("Unsupported format: " ++ ext), st)

/-! ### Range parsing and the streaming engine (`ChipHandler._stream`) -/

/-- Value of a non-empty all-digit string, `none` otherwise. -/
def digitsToNat (ds : List Char) : Option Nat :=
  if ds ≠ [] ∧ ds.all Char.isDigit then
    some (ds.foldl (fun acc c => acc * 10 + (c.toNat - 48)) 0)
  else none

/-- Python `int(s)` on an ordinary decimal numeral: surrounding whitespace
is allowed, then an optional sign and a non-empty digit string; everything
else raises `ValueError`, modelled as `none`. -/
def pyInt (cs : List Char) : Option Int :=
  let t := stripSet wsChars cs
  match t with
  | [] => none
  | '+' :: ds => (digitsToNat ds).map (fun n => (n : Int))
  | '-' :: ds => (digitsToNat ds).map (fun n => -(n : Int))
  | ds => (digitsToNat ds).map (fun n => (n : Int))

/-- The `try` block of the range parser, acting on `range_header[6:].split("-")`.
`start` and `end` begin as `0` and `file_size - 1`; the first assignment
parses `parts[0]` unless it is empty, and a `ValueError` there leaves both
defaults in place; the second assignment parses `parts[1]` when present and
non-empty, and a `ValueError` there keeps the already-assigned `start`. -/
def parseRangeParts (parts : List (List Char)) (size : Int) : Int × Int :=
  let p0 := parts.headD []
  match (if p0 = [] then some 0 else pyInt p0) with
  | none => (0, size - 1)
  | some v =>
    match
      (match parts.drop 1 with
       | [] => some (size - 1)
       | p1 :: _ => if p1 = [] then some (size - 1) else pyInt p1) with
    | none => (v, size - 1)
    | some e => (v, e)

/-- Range-header constant. -/
def bytesEq : String := "bytes="

/-- The whole range computation of `_stream`: a missing, empty or
non-`bytes=`-prefixed header keeps the full-file defaults, otherwise the
header remainder is split on `-` and fed to the `try` block. -/
def parseRange (rh : Option String) (size : Int) : Int × Int :=
  match rh with
  | none => (0, size - 1)
  | some s =>
    if s.data = [] then (0, size - 1)
    else if bytesEq.data.isPrefixOf s.data then
      parseRangeParts (splitOnChar '-' (s.data.drop 6)) size
    else (0, size - 1)

/-- `status = 206 if range_header else 200`: Python truthiness makes both a
missing header and a present-but-empty header fall to 200. -/
def statusOf (rh : Option String) : Nat :=
  match rh with
  | none => 200
  | some s => if s = "" then 200 else 206

/-! ### The `.fc` transcoder (`ChipHandler._stream_fc_as_wav`) -/

/-- One `I` (unsigned 32-bit little-endian) field of `struct.pack` applied
to a natural number; `none` is the raised `struct.error` on overflow. -/
def packU32 (v : Nat) : Option Bytes :=
  if v < 4294967296 then some (toLE 4 v) else none

/-- One `H` (unsigned 16-bit little-endian) field of `struct.pack`;
`none` is the raised `struct.error` on overflow. -/
def packU16 (v : Nat) : Option Bytes :=
  if v < 65536 then some (toLE 2 v) else none

/-- One `I` field applied to a Python `int` that may be negative;
`struct.error` is raised outside `[0, 2^32)`. -/
def packU32I (v : Int) : Option Bytes :=
  if 0 ≤ v ∧ v < 4294967296 then some (toLE 4 v.toNat) else none

/-- `_stream_fc_as_wav` on the bytes of the backing file: read the 6-byte
header (shorter files give shorter slices, decoded by `int.from_bytes` as
usual), compute the derived WAV header fields, and emit the packed 44-byte
RIFF/WAVE header followed by the file bytes after the header. The result is
`none` exactly when `struct.pack` raises (a negative `pcm_size` from a file
shorter than 6 bytes, or a field exceeding its fixed-width slot), in which
case the Python handler dies before sending any response. -/
def streamFcAsWav (file : Bytes) : Option Bytes :=
  let header := file.take 6
  let sampleRate := fromLE (header.take 4)
  let channels := fromLE (header.drop 4)
  let pcmSize : Int := (file.length : Int) - 6
  let byteRate := sampleRate * channels * 16 / 8
  let blockAlign := channels * 16 / 8
  match packU32I (36 + pcmSize), packU16 channels, packU32 sampleRate,
        packU32 byteRate, packU16 blockAlign, packU32I pcmSize with
  | some csB, some chB, some srB, some brB, some baB, some psB =>
    some (asciiBytes "RIFF" ++ csB ++ asciiBytes "WAVE" ++ asciiBytes "fmt " ++
          toLE 4 16 ++ toLE 2 1 ++ chB ++ srB ++ brB ++ baB ++ toLE 2 16 ++
          asciiBytes "data" ++ psB ++ file.drop 6)
  | _, _, _, _, _, _ => none

/-- Observable outcome of a `GET /stream/<id>` request. -/
inductive StreamOut where
  /-- A 404 `send_error_json` answer. -/
  | notFound (msg : String)
  /-- The plain (non-`.fc`) path: status, `Content-Range` start/end/size
  fields, and the streamed body bytes. -/
  | plain (status : Nat) (startPos endPos size : Int) (body : Bytes)
  /-- The `.fc` path: status 200 with the synthesized WAV bytes. -/
  | wav (body : Bytes)
  /-- An exception escaped the handler; no response was sent. -/
  | crash
  deriving DecidableEq, Repr

/-- `_stream(raw_id)` for an already-percent-decoded id: resolve the song
and its backing file (404 on either miss), branch to the `.fc` transcoder
when the record's extension is `.fc`, and otherwise serve bytes under the
range semantics: `length = end - start + 1` bytes are requested from
position `start`, and the chunked read loop stops early at end of file. -/
def streamHandler (st : ServerState) (songId : String) (rh : Option String) :
    StreamOut :=
  match findSong st.catalog songId with
  | none => StreamOut.notFound "Not found"
  | some target =>
    match lookupFile st.files target.filename with
    | none => StreamOut.notFound "File missing"
    | some content =>
      if target.ext == ".fc" then
        match streamFcAsWav content with
        | some body => StreamOut.wav body
        | none => StreamOut.crash
      else
        let size : Int := content.length
        let se := parseRange rh size
        StreamOut.plain (statusOf rh) se.1 se.2 size
          ((content.drop se.1.toNat).take (se.2 - se.1 + 1).toNat)

/-! ### Concrete sample inputs used by witnesses and counterexamples -/

/-- A multipart body (boundary `B`) carrying two file parts: first
`a.mp3` with content `AAA`, then `b.mp3` with content `BBB`. -/
def mpTwoFiles : Bytes :=
  asciiBytes "--B\r\nContent-Disposition: form-data; name=\"file\"; filename=\"a.mp3\"\r\n\r\nAAA\r\n--B\r\nContent-Disposition: form-data; name=\"file\"; filename=\"b.mp3\"\r\n\r\nBBB\r\n--B--\r\n"

/-- A sample catalog record backed by the file `s1.mp3`. -/
def songW : Song := ⟨"s1", "T", "A", "", "s1.mp3", ".mp3", 1, "ts"⟩

/-- A sample server state holding `songW` and its backing file. -/
def stDel : ServerState := ⟨[songW], [("s1.mp3", [7])]⟩

/-- A sample catalog record with the proprietary `.fc` extension whose
backing file is 3 bytes long — shorter than the 6-byte format header. -/
def songFc : Song := ⟨"s1", "T", "A", "", "s1.fc", ".fc", 3, "ts"⟩

/-- Server state holding `songFc` and its 3-byte backing file. -/
def stFc : ServerState := ⟨[songFc], [("s1.fc", [1, 2, 3])]⟩

/-- A sample non-`.fc` state used on the plain streaming path. -/
def stMp3 : ServerState := ⟨[songW], [("s1.mp3", [9, 8, 7])]⟩

/-- File slots resulting from a run of file parts: the last file part (if
any) fills both slots, otherwise the initial slots `d` persist. -/
def lastFileOf (l : List (Bytes × String)) (d : Option Bytes × Option String) :
    Option Bytes × Option String :=
  match l.getLast? with
  | none => d
  | some cf => (some cf.1, some cf.2)

/-! ## Claim theorems -/

/-- C8: the catalog load operation never fails — a missing persisted
document yields the empty sequence, and a document the JSON parser rejects
also yields the empty sequence instead of propagating the parse error.
(`load_db` is a total function, so "never fails" holds by construction.) -/
theorem C8_load_db_tolerant :
    (∀ parse : String → Option (List Song), load_db parse none = []) ∧
    (∀ (parse : String → Option (List Song)) (doc : String),
      parse doc = none → load_db parse (some doc) = []) := by
  refine ⟨fun parse => rfl, fun parse doc h => ?_⟩
  simp [load_db, h]

/-- Witness for C8 at a concrete unparseable document. -/
theorem C8_load_db_witness :
    load_db (fun _ => none) none = [] ∧
    load_db (fun _ => none) (some "corrupted") = [] :=
  ⟨C8_load_db_tolerant.1 (fun _ => none),
   C8_load_db_tolerant.2 (fun _ => none) "corrupted" rfl⟩

/-- C10: an upload whose decoded body yields a file part with zero-byte
content, or a declared file name equal to the empty string, is rejected
with a 400 "No file uploaded" response and the server state (catalog and
upload directory) is unchanged: `if not file_data or not filename` treats
empty bytes and the empty string like absence. -/
theorem C10_empty_file_rejected (st : ServerState) (freshId now : String)
    (fields : List (String × String)) (fd : Option Bytes) (fn : Option String)
    (h : fd = some [] ∨ fn = some "") :
    apiUpload st freshId now ⟨fields, fd, fn⟩ = (Resp.err 400 "No file uploaded", st) := by
  rcases h with h | h <;> subst h <;> simp [apiUpload]

/-- Witness for C10 at a zero-byte file part. -/
theorem C10_empty_file_witness :
    apiUpload ⟨[], []⟩ "id1" "now" ⟨[], some [], some "a.mp3"⟩ =
      (Resp.err 400 "No file uploaded", ⟨[], []⟩) :=
  C10_empty_file_rejected ⟨[], []⟩ "id1" "now" [] (some []) (some "a.mp3") (Or.inl rfl)

/-- C6 (amended): on the non-transcoder streaming path the status is 206
whenever a Range header with a non-empty value is present — even an
unparseable one — and 200 when the header is absent or has an empty value
(`206 if range_header else 200` under Python truthiness). -/
theorem C6_status_semantics :
    statusOf none = 200 ∧ statusOf (some "") = 200 ∧
    ∀ s : String, s ≠ "" → statusOf (some s) = 206 := by
  refine ⟨rfl, rfl, fun s h => ?_⟩
  simp [statusOf, h]

/-- Witness for C6 at a present but unparseable Range header. -/
theorem C6_status_witness : statusOf (some "garbage") = 206 :=
  C6_status_semantics.2.2 "garbage" (by decide)

/-- Counterexample to C6 as stated: a Range header that is present with an
empty value still yields status 200 on the plain streaming path, because
`206 if range_header else 200` tests Python truthiness, under which the
empty string counts as absent. -/
theorem C6_counterexample :
    streamHandler stMp3 "s1" (some "") = StreamOut.plain 200 0 2 3 [9, 8, 7] := by
  decide

/-- C4 evaluated at the failing input: a `.fc` catalog entry whose backing
file is 3 bytes long makes `_stream_fc_as_wav` compute `pcm_size = -3`, and
`struct.pack` raises `struct.error` before any response line is sent
(modelled by `StreamOut.crash`), contradicting the claim that every input
produces an HTTP response. The 404 conjuncts show the lookup-failure half
of the claim behaving as stated. -/
theorem C4_fc_crash_and_404 :
    streamHandler stFc "s1" none = StreamOut.crash ∧
    streamHandler ⟨[], []⟩ "s1" none = StreamOut.notFound "Not found" ∧
    streamHandler ⟨[songFc], []⟩ "s1" none = StreamOut.notFound "File missing" := by
  refine ⟨by decide, by decide, by decide⟩

/-- C9: the multipart decoder is total by construction, and every part the
loop reaches that is empty, equal to the terminal `--` or `--\r\n` markers,
or lacking the blank-line (double CRLF) separator leaves the decoder state
unchanged — it contributes neither a field nor a file. -/
theorem C9_malformed_part_skipped (st : MPState) (p : Bytes)
    (h : p = [] ∨ p = [45, 45] ∨ p = [45, 45, 13, 10] ∨
      containsSeq [13, 10, 13, 10]
        (if ([13, 10] : Bytes).isPrefixOf p then p.drop 2 else p) = false) :
    processPart st p = st := by
  by_cases hskip : p = [] ∨ p = [45, 45] ∨ p = [45, 45, 13, 10]
  · simp [processPart, partScan, hskip]
  · have hc : containsSeq [13, 10, 13, 10]
        (if ([13, 10] : Bytes).isPrefixOf p then p.drop 2 else p) = false := by
      rcases h with h | h | h | h
      · exact absurd (Or.inl h) hskip
      · exact absurd (Or.inr (Or.inl h)) hskip
      · exact absurd (Or.inr (Or.inr h)) hskip
      · exact h
    have hps : partScan p = none := by
      unfold partScan
      rw [if_neg hskip]
      dsimp only
      rw [hc]
      rfl
    simp [processPart, hps]

/-- Witness for C9 at a concrete header-only part with no separator. -/
theorem C9_malformed_part_witness :
    processPart ⟨[("a", "b")], some [1], some "f.mp3"⟩
        (asciiBytes "Content-Disposition: form-data; name=x") =
      ⟨[("a", "b")], some [1], some "f.mp3"⟩ :=
  C9_malformed_part_skipped _ _ (Or.inr (Or.inr (Or.inr (by decide))))

/-- C7: deleting an unknown id answers 404 and leaves the state unchanged;
deleting a known id answers 200, removes the record from the catalog and
the backing file from the upload directory (a missing backing file would be
tolerated, since the removal is a filter), and a second delete of the same
id answers 404 and changes nothing further. -/
theorem C7_delete_idempotent (st : ServerState) (songId : String) :
    (findSong st.catalog songId = none →
      apiDelete st songId = (Resp.err 404 "Not found", st)) ∧
    (∀ t, findSong st.catalog songId = some t →
      (apiDelete st songId).1 = Resp.ok 200 ∧
      findSong (apiDelete st songId).2.catalog songId = none ∧
      lookupFile (apiDelete st songId).2.files t.filename = none ∧
      apiDelete (apiDelete st songId).2 songId =
        (Resp.err 404 "Not found", (apiDelete st songId).2)) := by
  constructor
  · intro h
    simp [apiDelete, h]
  · intro t h
    have hres : apiDelete st songId =
        (Resp.ok 200,
         ⟨st.catalog.filter (fun s => ¬ s.id == songId),
          unlinkFile st.files t.filename⟩) := by
      simp [apiDelete, h]
    have hfind : findSong (st.catalog.filter (fun s => ¬ s.id == songId)) songId = none := by
      apply List.find?_eq_none.mpr
      intro x hx
      have hmem := (List.mem_filter.mp hx).2
      simpa using hmem
    have hfile : lookupFile (unlinkFile st.files t.filename) t.filename = none := by
      unfold lookupFile unlinkFile
      rw [List.find?_eq_none.mpr]
      · rfl
      · intro x hx
        have hmem := (List.mem_filter.mp hx).2
        simpa using hmem
    refine ⟨by rw [hres], by rw [hres]; exact hfind, by rw [hres]; exact hfile, ?_⟩
    rw [hres]
    unfold apiDelete
    dsimp only
    rw [hfind]

/-- Witness for C7 at a concrete one-song state and an unknown id. -/
theorem C7_delete_witness :
    apiDelete ⟨[], []⟩ "zz" = (Resp.err 404 "Not found", ⟨[], []⟩) ∧
    ((apiDelete stDel "s1").1 = Resp.ok 200 ∧
      findSong (apiDelete stDel "s1").2.catalog "s1" = none ∧
      lookupFile (apiDelete stDel "s1").2.files "s1.mp3" = none ∧
      apiDelete (apiDelete stDel "s1").2 "s1" =
        (Resp.err 404 "Not found", (apiDelete stDel "s1").2)) :=
  ⟨(C7_delete_idempotent ⟨[], []⟩ "zz").1 rfl,
   (C7_delete_idempotent stDel "s1").2 songW (by decide)⟩

/-- C2: a successful upload (non-empty file and file name, allowed
extension, fresh id not already in the catalog — uuid uniqueness) appends
exactly one record to the catalog; a subsequent listing contains exactly
one record with that id, its fields are the submitted metadata with the
placeholder defaults substituted for blank title/artist, and its size is
the byte count of the uploaded content. -/
theorem C2_upload_roundtrip (st : ServerState) (freshId now fname : String)
    (fields : List (String × String)) (fd : Bytes) (meta : Song)
    (hfd : fd ≠ []) (hfn : fname ≠ "")
    (hext : lowerStr (pathSuffix fname) ∈ ALLOWED_EXTS)
    (hfresh : ∀ s ∈ st.catalog, s.id ≠ freshId)
    (hmeta : meta = ⟨freshId,
      pyOr (pyStrip ((pyDictGet fields "title").getD "")) unknownTitle,
      pyOr (pyStrip ((pyDictGet fields "artist").getD "")) unknownArtist,
      pyStrip ((pyDictGet fields "comment").getD ""),
      freshId ++ lowerStr (pathSuffix fname), lowerStr (pathSuffix fname),
      fd.length, now ++ "Z"⟩) :
    (apiUpload st freshId now ⟨fields, some fd, some fname⟩).1 =
      Resp.uploaded 201 meta ∧
    (apiUpload st freshId now ⟨fields, some fd, some fname⟩).2.catalog.filter
      (fun s => s.id == freshId) = [meta] := by
  have hcond : ¬ (fd = [] ∨ fname = "") := by
    simp [hfd, hfn]
  have happ : apiUpload st freshId now ⟨fields, some fd, some fname⟩ =
      (Resp.uploaded 201 meta,
       ⟨st.catalog ++ [meta],
        writeFile st.files (freshId ++ lowerStr (pathSuffix fname)) fd⟩) := by
    unfold apiUpload
    dsimp only
    simp only [Option.getD_some]
    rw [if_neg hcond, if_pos hext, hmeta]
  refine ⟨by rw [happ], ?_⟩
  rw [happ]
  dsimp only
  rw [List.filter_append]
  have h1 : st.catalog.filter (fun s => s.id == freshId) = [] := by
    rw [List.filter_eq_nil_iff]
    intro s hs
    simpa using hfresh s hs
  have h2 : List.filter (fun s => s.id == freshId) [meta] = [meta] := by
    have : meta.id = freshId := by rw [hmeta]
    simp [List.filter, this]
  rw [h1, h2, List.nil_append]

/-- Witness for C2 at a concrete upload into an empty catalog. -/
theorem C2_upload_witness :
    (apiUpload ⟨[], []⟩ "id9" "now" ⟨[("title", " My Song "), ("artist", "")],
        some [1, 2, 3], some "a.MP3"⟩).1 =
      Resp.uploaded 201 ⟨"id9", "My Song", "Unknown Artist", "", "id9.mp3",
        ".mp3", 3, "nowZ"⟩ ∧
    (apiUpload ⟨[], []⟩ "id9" "now" ⟨[("title", " My Song "), ("artist", "")],
        some [1, 2, 3], some "a.MP3"⟩).2.catalog.filter
      (fun s => s.id == "id9") =
      [⟨"id9", "My Song", "Unknown Artist", "", "id9.mp3", ".mp3", 3, "nowZ"⟩] :=
  C2_upload_roundtrip ⟨[], []⟩ "id9" "now" "a.MP3"
    [("title", " My Song "), ("artist", "")] [1, 2, 3]
    ⟨"id9", "My Song", "Unknown Artist", "", "id9.mp3", ".mp3", 3, "nowZ"⟩
    (by decide) (by decide) (by decide) (by intro s hs; cases hs) (by decide)

/-- C3 (amended): only the `bytes=<start>-<end>` form is recognized; a
missing or unrecognized header keeps the full-file defaults; an omitted
`<start>` is taken as 0 and an omitted `<end>` as `size - 1`; a failure to
parse `<start>` yields full-file semantics `(0, size - 1)`; but when
`<start>` parses and `<end>` fails to parse, the parsed `<start>` is
retained and only `<end>` falls back to `size - 1` — a partially applied
range, contrary to the claim as stated. -/
theorem C3_range_semantics :
    (∀ size : Int, parseRange none size = (0, size - 1)) ∧
    (∀ (s : String) (size : Int), bytesEq.data.isPrefixOf s.data = false →
      parseRange (some s) size = (0, size - 1)) ∧
    (∀ (size : Int) (rest : List (List Char)),
      (parseRangeParts ([] :: rest) size).1 = 0) ∧
    (∀ (size v : Int) (p0 : List Char), pyInt p0 = some v →
      parseRangeParts [p0] size = (v, size - 1)) ∧
    (∀ (size v : Int) (p0 : List Char) (rest : List (List Char)),
      pyInt p0 = some v → parseRangeParts (p0 :: [] :: rest) size = (v, size - 1)) ∧
    (∀ (size : Int) (p0 : List Char) (rest : List (List Char)),
      p0 ≠ [] → pyInt p0 = none → parseRangeParts (p0 :: rest) size = (0, size - 1)) ∧
    (∀ (size v : Int) (p0 p1 : List Char) (rest : List (List Char)),
      pyInt p0 = some v → p1 ≠ [] → pyInt p1 = none →
      parseRangeParts (p0 :: p1 :: rest) size = (v, size - 1)) ∧
    (∀ (size v w : Int) (p0 p1 : List Char) (rest : List (List Char)),
      pyInt p0 = some v → pyInt p1 = some w →
      parseRangeParts (p0 :: p1 :: rest) size = (v, w)) := by
  have hnil : pyInt [] = none := rfl
  have hne : ∀ (p : List Char) (v : Int), pyInt p = some v → p ≠ [] := by
    intro p v h hp
    subst hp
    rw [hnil] at h
    cases h
  refine ⟨fun size => rfl, ?_, ?_, ?_, ?_, ?_, ?_, ?_⟩
  · intro s size h
    unfold parseRange
    dsimp only
    by_cases hs : s.data = []
    · rw [if_pos hs]
    · rw [if_neg hs, if_neg (by simp [h])]
  · intro size rest
    cases rest with
    | nil => rfl
    | cons p1 ps =>
      unfold parseRangeParts
      dsimp only [List.headD, List.drop]
      by_cases h1 : p1 = []
      · simp [h1]
      · rw [if_neg h1]
        cases hp1 : pyInt p1 <;> rfl
  · intro size v p0 h
    unfold parseRangeParts
    dsimp only [List.headD, List.drop]
    rw [if_neg (hne p0 v h), h]
  · intro size v p0 rest h
    unfold parseRangeParts
    dsimp only [List.headD, List.drop]
    rw [if_neg (hne p0 v h), h]
    simp
  · intro size p0 rest h0 h
    unfold parseRangeParts
    dsimp only [List.headD, List.drop]
    rw [if_neg h0, h]
  · intro size v p0 p1 rest h0 h1 h2
    unfold parseRangeParts
    dsimp only [List.headD, List.drop]
    rw [if_neg (hne p0 v h0), h0, if_neg h1, h2]
  · intro size v w p0 p1 rest h0 h1
    unfold parseRangeParts
    dsimp only [List.headD, List.drop]
    rw [if_neg (hne p0 v h0), h0, if_neg (hne p1 w h1), h1]

/-- Witness for C3 at a concrete parsed start and failing end. -/
theorem C3_range_witness :
    parseRangeParts [['1', '0'], ['x', 'y', 'z']] 100 = (10, 99) :=
  C3_range_semantics.2.2.2.2.2.2.1 100 10 ['1', '0'] ['x', 'y', 'z'] []
    (by decide) (by decide) (by decide)

/-- Counterexample to C3 as stated: the header `bytes=10-xyz` suffers a
parse failure on its end position (`int("xyz")` raises), yet the result is
`(10, 99)` for a 100-byte file rather than the claimed full-file `(0, 99)`:
`start` had already been assigned before the exception was caught, so the
range is partially applied. -/
theorem C3_range_counterexample :
    pyInt ['x', 'y', 'z'] = none ∧
    parseRange (some "bytes=10-xyz") 100 ≠ (0, 99) ∧
    parseRange (some "bytes=10-xyz") 100 = (10, 99) := by
  refine ⟨by decide, by decide, by decide⟩

/-- Length of a fixed-width little-endian encoding. -/
theorem toLE_length (n v : Nat) : (toLE n v).length = n := by
  induction n generalizing v with
  | zero => rfl
  | succ n ih => simp [toLE, ih]

/-- Round trip of the little-endian encoding for values that fit. -/
theorem fromLE_toLE (n v : Nat) (h : v < 256 ^ n) : fromLE (toLE n v) = v := by
  induction n generalizing v with
  | zero =>
    interval_cases v
    rfl
  | succ n ih =>
    have hdiv : v / 256 < 256 ^ n := by
      rw [Nat.div_lt_iff_lt_mul (by norm_num : 0 < 256)]
      calc v < 256 ^ (n + 1) := h
        _ = 256 ^ n * 256 := by ring
    show v % 256 + 256 * fromLE (toLE n (v / 256)) = v
    rw [ih (v / 256) hdiv, Nat.mod_add_div]

/-- C5 (amended): for every `.fc` file whose 6-byte header encodes sample
rate `R` and channel count `C`, followed by `K` PCM bytes, and whose
derived fields fit their fixed-width header slots (`R×C×2 < 2^32` for the
4-byte byteRate, `C×2 < 2^16` for the 2-byte blockAlign, `36 + K < 2^32`
for the chunk and data sizes), the transcoder emits the 44-byte RIFF/WAVE
header with `chunkSize = 36 + K`, PCM format tag 1, `byteRate = R×C×2`,
`blockAlign = C×2`, bits-per-sample 16 and `dataSize = K`, followed by the
`K` PCM bytes verbatim; the claim as stated omits the fitting conditions,
without which `struct.pack` raises instead of emitting anything. -/
theorem C5_fc_transcoder (R C : Nat) (pcm : Bytes)
    (hR : R < 4294967296) (hC : C < 65536)
    (hbr : R * C * 2 < 4294967296) (hba : C * 2 < 65536)
    (hk : pcm.length + 36 < 4294967296) :
    streamFcAsWav (toLE 4 R ++ toLE 2 C ++ pcm) =
      some (asciiBytes "RIFF" ++ toLE 4 (36 + pcm.length) ++ asciiBytes "WAVE" ++
            asciiBytes "fmt " ++ toLE 4 16 ++ toLE 2 1 ++ toLE 2 C ++ toLE 4 R ++
            toLE 4 (R * C * 2) ++ toLE 2 (C * 2) ++ toLE 2 16 ++
            asciiBytes "data" ++ toLE 4 pcm.length ++ pcm) := by
  have l4 : (toLE 4 R).length = 4 := toLE_length 4 R
  have l2 : (toLE 2 C).length = 2 := toLE_length 2 C
  have l42 : (toLE 4 R ++ toLE 2 C).length = 6 := by
    rw [List.length_append, l4, l2]
  have htake6 : (toLE 4 R ++ toLE 2 C ++ pcm).take 6 = toLE 4 R ++ toLE 2 C := by
    rw [List.take_append_eq_append_take, List.take_of_length_le (le_of_eq l42), l42]
    simp
  have htake4 : (toLE 4 R ++ toLE 2 C).take 4 = toLE 4 R := by
    rw [List.take_append_eq_append_take, List.take_of_length_le (le_of_eq l4), l4]
    simp
  have hdropA : (toLE 4 R).drop 4 = [] :=
    List.drop_eq_nil_of_le (le_of_eq l4)
  have hdrop4 : (toLE 4 R ++ toLE 2 C).drop 4 = toLE 2 C := by
    rw [List.drop_append_eq_append_drop, hdropA, l4]
    simp
  have hdropAB : (toLE 4 R ++ toLE 2 C).drop 6 = [] :=
    List.drop_eq_nil_of_le (le_of_eq l42)
  have hdrop6 : (toLE 4 R ++ toLE 2 C ++ pcm).drop 6 = pcm := by
    rw [List.drop_append_eq_append_drop, hdropAB, l42]
    simp
  have hlen : (toLE 4 R ++ toLE 2 C ++ pcm).length = 6 + pcm.length := by
    rw [List.length_append, l42]
  have hR4 : R < 256 ^ 4 := by
    norm_num
    exact hR
  have hC2 : C < 256 ^ 2 := by
    norm_num
    exact hC
  unfold streamFcAsWav
  dsimp only
  rw [htake6, htake4, hdrop4, hdrop6, hlen, fromLE_toLE 4 R hR4, fromLE_toLE 2 C hC2]
  have hpcm : ((6 + pcm.length : Nat) : Int) - 6 = (pcm.length : Int) := by
    push_cast
    ring
  rw [hpcm]
  have hbrEq : R * C * 16 / 8 = R * C * 2 := by omega
  have hbaEq : C * 16 / 8 = C * 2 := by omega
  have hcs : packU32I (36 + (pcm.length : Int)) = some (toLE 4 (36 + pcm.length)) := by
    unfold packU32I
    rw [if_pos ⟨by positivity, by omega⟩,
        show ((36 : Int) + (pcm.length : Int)).toNat = 36 + pcm.length by omega]
  have hch : packU16 C = some (toLE 2 C) := by
    unfold packU16
    rw [if_pos hC]
  have hsr : packU32 R = some (toLE 4 R) := by
    unfold packU32
    rw [if_pos hR]
  have hbrP : packU32 (R * C * 16 / 8) = some (toLE 4 (R * C * 2)) := by
    unfold packU32
    rw [hbrEq, if_pos hbr]
  have hbaP : packU16 (C * 16 / 8) = some (toLE 2 (C * 2)) := by
    unfold packU16
    rw [hbaEq, if_pos hba]
  have hps : packU32I (pcm.length : Int) = some (toLE 4 pcm.length) := by
    unfold packU32I
    rw [if_pos ⟨by positivity, by omega⟩,
        show ((pcm.length : Int)).toNat = pcm.length by omega]
  rw [hcs, hch, hsr, hbrP, hbaP, hps]

/-- Witness for C5 at a 44100 Hz stereo file with four PCM bytes. -/
theorem C5_fc_transcoder_witness :
    streamFcAsWav (toLE 4 44100 ++ toLE 2 2 ++ [1, 2, 3, 4]) =
      some (asciiBytes "RIFF" ++ toLE 4 40 ++ asciiBytes "WAVE" ++
            asciiBytes "fmt " ++ toLE 4 16 ++ toLE 2 1 ++ toLE 2 2 ++
            toLE 4 44100 ++ toLE 4 176400 ++ toLE 2 4 ++ toLE 2 16 ++
            asciiBytes "data" ++ toLE 4 4 ++ [1, 2, 3, 4]) :=
  C5_fc_transcoder 44100 2 [1, 2, 3, 4] (by decide) (by decide) (by decide)
    (by decide) (by decide)

/-- Counterexample to C5 as stated: a 6-byte `.fc` file whose header
encodes sample rate `2^31` and 2 channels has `byteRate = 2^33`, which does
not fit the 4-byte byteRate slot; `struct.pack` raises `struct.error` and
the transcoder emits nothing at all instead of a 44-byte header. -/
theorem C5_fc_counterexample : streamFcAsWav [0, 0, 0, 128, 2, 0] = none := by
  decide

/-- Base case law of `lastFileOf`. -/
theorem lastFileOf_nil (d : Option Bytes × Option String) : lastFileOf [] d = d := rfl

/-- Cons law of `lastFileOf`: a leading file part becomes the fallback for
the remaining run. -/
theorem lastFileOf_cons (cf : Bytes × String) (l : List (Bytes × String))
    (d : Option Bytes × Option String) :
    lastFileOf (cf :: l) d = lastFileOf l (some cf.1, some cf.2) := by
  cases l with
  | nil => rfl
  | cons e es =>
    unfold lastFileOf
    rw [List.getLast?_cons_cons]
    cases hl : (e :: es).getLast? with
    | none =>
      rw [List.getLast?_eq_none_iff] at hl
      cases hl
    | some x => rfl

/-- A part contributing no file payload leaves the file slots unchanged. -/
theorem processPart_file_none (st : MPState) (p : Bytes) (h : partFile p = none) :
    (processPart st p).fileData = st.fileData ∧
    (processPart st p).filename = st.filename := by
  unfold processPart
  unfold partFile at h
  cases hscan : partScan p with
  | none => exact ⟨rfl, rfl⟩
  | some cnf =>
    rw [hscan] at h
    dsimp only at h ⊢
    by_cases hc : cnf.2.2.getD [] ≠ []
    · rw [if_pos hc] at h
      cases h
    · rw [if_neg hc]
      by_cases hn : cnf.2.1 ≠ []
      · rw [if_pos hn]
        exact ⟨rfl, rfl⟩
      · rw [if_neg hn]
        exact ⟨rfl, rfl⟩

/-- A part contributing a file payload overwrites both file slots with it. -/
theorem processPart_file_some (st : MPState) (p : Bytes) (cf : Bytes × String)
    (h : partFile p = some cf) :
    (processPart st p).fileData = some cf.1 ∧
    (processPart st p).filename = some cf.2 := by
  unfold processPart
  unfold partFile at h
  cases hscan : partScan p with
  | none =>
    rw [hscan] at h
    dsimp only at h
    cases h
  | some cnf =>
    rw [hscan] at h
    dsimp only at h ⊢
    by_cases hc : cnf.2.2.getD [] ≠ []
    · rw [if_pos hc] at h ⊢
      cases h
      exact ⟨rfl, rfl⟩
    · rw [if_neg hc] at h
      cases h

/-- The decoder loop keeps exactly the last file payload of the parts it
folds over, regardless of the initial state. -/
theorem foldl_processPart_file (parts : List Bytes) (st : MPState) :
    ((parts.foldl processPart st).fileData, (parts.foldl processPart st).filename) =
      lastFileOf (parts.filterMap partFile) (st.fileData, st.filename) := by
  induction parts generalizing st with
  | nil => rfl
  | cons p ps ih =>
    rw [List.foldl_cons]
    cases hp : partFile p with
    | none =>
      rw [List.filterMap_cons_none hp, ih (processPart st p),
          (processPart_file_none st p hp).1, (processPart_file_none st p hp).2]
    | some cf =>
      rw [List.filterMap_cons_some hp, lastFileOf_cons, ih (processPart st p),
          (processPart_file_some st p cf hp).1, (processPart_file_some st p cf hp).2]

/-- C1 (amended): for every multipart body and boundary, the decoder
returns the content and declared file name of the last part carrying a
non-empty filename attribute — each later file part silently overwrites the
earlier one — and returns no file when no such part exists. -/
theorem C1_last_file_part_wins (body boundary : Bytes) :
    ((parseMultipart body boundary).fileData, (parseMultipart body boundary).filename) =
      lastFileOf (filePartsOf body boundary) (none, none) :=
  foldl_processPart_file ((pySplit body ([45, 45] ++ boundary)).drop 1) ⟨[], none, none⟩

set_option maxRecDepth 12000 in
/-- Counterexample to C1 as stated: a body with two file parts — `a.mp3`
with content `AAA` first, then `b.mp3` with content `BBB` — yields the
second file part, not the first. -/
theorem C1_counterexample :
    filePartsOf mpTwoFiles (asciiBytes "B") =
      [(asciiBytes "AAA", "a.mp3"), (asciiBytes "BBB", "b.mp3")] ∧
    (parseMultipart mpTwoFiles (asciiBytes "B")).fileData = some (asciiBytes "BBB") ∧
    (parseMultipart mpTwoFiles (asciiBytes "B")).filename = some "b.mp3" := by
  refine ⟨by decide, by decide, by decide⟩

end ChipStream
